import Mathlib

/-
Verification of the box walker core of codestream-parser (src/jp2box.py,
src/jp2utils.py), a JPEG2000/JP2 box-structure parser.

Shallow embedding notes.
* Bytes are modelled as `Nat`; real buffers only ever hold values < 256,
  which theorems assume where the value range matters.
* The in-memory byte source is the `Buffer` class of jp2utils.py
  (offset + underlying string), modelled as an explicit state value that is
  threaded through each operation instead of being mutated in place.
* Python exceptions become an explicit error type `PyError`; `struct.error`
  (struct.unpack demands an exact-length argument) and `UnicodeDecodeError`
  (bytes ≥ 0x80 fail `.decode("ascii")`) are reachable in the source and are
  modelled faithfully.  `boxname` follows the Python-2 semantics under which
  the module runs (`string.letters` / `string.index` exist only there).
* `JP2Box` objects keep their fields; the `infile` member is threaded
  separately as a `Buffer` argument.  The `parse` while-loop is embedded as a
  single-iteration step function `parse_step` plus a fuelled loop
  `parse_loop`; the per-box handler ("hook") is a function that may read and
  seek the shared byte source but, per the handler interface of the walker,
  does not assign the walker's own fields.
-/

namespace JP2

/-- Python exceptions reachable from the modelled code: the JP2Error
subclasses of jp2utils.py that jp2box.py raises, plus the builtin exceptions
`struct.error`, `UnicodeDecodeError` and `IndexError` that its helper calls
can raise. -/
inductive PyError where
  | UnexpectedEOF
  | InvalidBoxLength (box : String)
  | StructError
  | UnicodeDecodeError
  | IndexError
deriving Repr, DecidableEq

/-- The in-memory byte source: class Buffer of jp2utils.py (a buffer string
and a read offset). -/
structure Buffer where
  buffer : List Nat
  offset : Nat
deriving Repr, DecidableEq

/-- Buffer.eof_reached: `self.offset >= len(self.buffer)`. -/
def Buffer.eof_reached (b : Buffer) : Bool :=
  decide (b.buffer.length ≤ b.offset)

/-- Buffer.rest_len: `len(self.buffer) - self.offset`. -/
def Buffer.rest_len (b : Buffer) : Nat :=
  b.buffer.length - b.offset

/-- Buffer.tell. -/
def Buffer.tell (b : Buffer) : Nat := b.offset

/-- Buffer.seek (absolute). -/
def Buffer.seek (b : Buffer) (where0 : Nat) : Buffer :=
  { b with offset := where0 }

/-- The clamped byte count of Buffer.read: Python's
`if length == -1 or length > self.rest_len(): length = self.rest_len()`.
The default argument `read()` is modelled by passing -1 explicitly. -/
def Buffer.read_amount (b : Buffer) (length : Int) : Nat :=
  if length = -1 ∨ (b.rest_len : Int) < length then b.rest_len else length.toNat

/-- Buffer.read: returns "" at EOF without moving, otherwise the next
`read_amount` bytes, advancing the offset.  The new buffer state is returned
alongside the bytes (the Python method mutates in place). -/
def Buffer.read (b : Buffer) (length : Int) : List Nat × Buffer :=
  if b.eof_reached then ([], b)
  else
    ((b.buffer.drop b.offset).take (b.read_amount length),
     ⟨b.buffer, b.offset + b.read_amount length⟩)

/-- Big-endian 32-bit value of four bytes (the arithmetic of
struct.unpack('>L'), written out). -/
def ordl4 (b0 b1 b2 b3 : Nat) : Nat :=
  ((b0 * 256 + b1) * 256 + b2) * 256 + b3

/-- jp2utils.ordl = struct.unpack('>L', buf): struct.error unless the
argument is exactly 4 bytes long. -/
def ordl (buf : List Nat) : Except PyError Nat :=
  match buf with
  | [b0, b1, b2, b3] => .ok (ordl4 b0 b1 b2 b3)
  | _ => .error .StructError

/-- Big-endian 64-bit value of eight bytes. -/
def ordq8 (b0 b1 b2 b3 b4 b5 b6 b7 : Nat) : Nat :=
  ((((((b0 * 256 + b1) * 256 + b2) * 256 + b3) * 256 + b4) * 256 + b5) * 256
      + b6) * 256 + b7

/-- jp2utils.ordq = struct.unpack('>Q', buf): struct.error unless the
argument is exactly 8 bytes long. -/
def ordq (buf : List Nat) : Except PyError Nat :=
  match buf with
  | [b0, b1, b2, b3, b4, b5, b6, b7] => .ok (ordq8 b0 b1 b2 b3 b4 b5 b6 b7)
  | _ => .error .StructError

/-- Python's `.decode("ascii")`: identity on byte sequences that are all
< 0x80, UnicodeDecodeError otherwise (codepoints equal byte values in the
ASCII range, so the decoded text is kept as the same byte list). -/
def decode_ascii (buf : List Nat) : Except PyError (List Nat) :=
  if buf.all (fun b => decide (b < 128)) then .ok buf
  else .error .UnicodeDecodeError

/-- Membership of a character in Python 2's `string.letters + string.digits`
(C locale: a-z, A-Z, 0-9). -/
def isLetterDigit (c : Nat) : Bool :=
  (97 ≤ c && c ≤ 122) || (65 ≤ c && c ≤ 90) || (48 ≤ c && c ≤ 57)

/-- One lowercase hex digit. -/
def hexDigit (n : Nat) : Char :=
  if n < 10 then Char.ofNat (48 + n) else Char.ofNat (87 + n)

/-- `"%02x" % n` for a byte value (two lowercase hex digits; faithful for
n < 256, the range of real bytes). -/
def byteHex (n : Nat) : String :=
  String.mk [hexDigit (n / 16), hexDigit (n % 16)]

/-- A byte list as the text it denotes (used where Python returns the id
string itself). -/
def strOfBytes (l : List Nat) : String :=
  String.mk (l.map Char.ofNat)

/-- The `try: for i in range(4): string.index(string.letters +
string.digits, id[i])` loop of JP2Box.boxname, unrolled.  `id[i]` on a
missing index raises IndexError (not caught by the `except ValueError`);
a character outside letters+digits raises ValueError, answered by `false`
(the except branch is taken). -/
def boxname_scan (id : List Nat) : Except PyError Bool :=
  match id.get? 0 with
  | none => .error .IndexError
  | some c0 =>
    if isLetterDigit c0 then
      match id.get? 1 with
      | none => .error .IndexError
      | some c1 =>
        if isLetterDigit c1 then
          match id.get? 2 with
          | none => .error .IndexError
          | some c2 =>
            if isLetterDigit c2 then
              match id.get? 3 with
              | none => .error .IndexError
              | some c3 =>
                if isLetterDigit c3 then .ok true else .ok false
            else .ok false
        else .ok false
    else .ok false

/-- The `"0x%02x%02x%02x%02x" % (ordb(id[0]), ...)` branch of
JP2Box.boxname; `id[i]` on a missing index raises IndexError. -/
def hexOfTag (id : List Nat) : Except PyError String :=
  match id.get? 0, id.get? 1, id.get? 2, id.get? 3 with
  | some a, some b, some c, some d =>
      .ok ("0x" ++ byteHex a ++ byteHex b ++ byteHex c ++ byteHex d)
  | _, _, _, _ => .error .IndexError

/-- JP2Box.boxname (jp2box.py lines 51-57): the id itself if its first four
characters are all ASCII letters/digits, otherwise the 0x-prefixed hex form
of its four bytes. -/
def boxname (id : List Nat) : Except PyError String :=
  match boxname_scan id with
  | .error e => .error e
  | .ok true => .ok (strOfBytes id)
  | .ok false => hexOfTag id

/-- The mutable fields of a JP2Box object (jp2box.py __init__); the `infile`
member is threaded separately as a `Buffer`. -/
structure JP2Box where
  indent : Int
  offset : Nat
  «end» : Nat
  hdrsize : Nat
  boxsize : Nat
  target : Nat
  bodysize : Nat
deriving Repr, DecidableEq

/-- JP2Box(None, infile): the root walker. -/
def JP2Box.init_root : JP2Box :=
  { indent := 0, offset := 0, «end» := 0, hdrsize := 0, boxsize := 0,
    target := 0, bodysize := 0 }

/-- JP2Box(box, infile, offs): a child walker scoped to `box.target`. -/
def JP2Box.init_child (box : JP2Box) (offs : Nat) : JP2Box :=
  { indent := box.indent, offset := box.offset + offs, «end» := box.target,
    hdrsize := 0, boxsize := 0, target := 0, bodysize := 0 }

/-- Result shapes of JP2Box.parse_header: the empty tuple (no more boxes),
the 1-tuple `(id,)` (the L == 0 end-of-scope sentinel), or `(length, id)`. -/
inductive HeaderResult where
  | empty
  | sentinel (id : List Nat)
  | box (length : Nat) (id : List Nat)
deriving Repr, DecidableEq

/-- Lines 100-120 of JP2Box.parse_header: the length-field semantics once
the 4-byte length and decoded 4-char id are in hand.  `self.offset` has been
advanced by 8 and `self.hdrsize` set to 8 before this point (both folded
into the returned states; the extended-length branch advances the offset by
8 more and sets hdrsize to 16); error paths discard the state, matching
exception propagation. -/
def JP2Box.parse_header_tail (self : JP2Box) (infile : Buffer) (len0 : Nat)
    (id : List Nat) : Except PyError (HeaderResult × JP2Box × Buffer) :=
  if len0 = 1 then
    match infile.read 8 with
    | (xlength, infile3) =>
      if xlength.length < 8 then .error .UnexpectedEOF
      else
        match ordq xlength with
        | .error e => .error e
        | .ok xl =>
          if xl < 16 then
            match boxname id with
            | .error e => .error e
            | .ok nm => .error (.InvalidBoxLength nm)
          else
            .ok (.box (xl - 16) id,
                 { self with offset := self.offset + 16, hdrsize := 16,
                             boxsize := xl - 16 },
                 infile3)
  else if 0 < len0 ∧ len0 < 8 then
    match boxname id with
    | .error e => .error e
    | .ok nm => .error (.InvalidBoxLength nm)
  else if 0 < len0 then
    .ok (.box (len0 - 8) id,
         { self with offset := self.offset + 8, hdrsize := 8,
                     boxsize := len0 - 8 },
         infile)
  else
    .ok (.sentinel id,
         { self with offset := self.offset + 8, hdrsize := 8 },
         infile)

/-- Lines 88-120 of JP2Box.parse_header: read the 4-byte length field
(empty read = no more boxes, short read = UnexpectedEOF), read and
ascii-decode the 4-byte type tag (short decoded tag = UnexpectedEOF), then
apply the length-field semantics. -/
def JP2Box.parse_header_read (self : JP2Box) (infile : Buffer) :
    Except PyError (HeaderResult × JP2Box × Buffer) :=
  match infile.read 4 with
  | (lbuf, infile1) =>
    if lbuf.length = 0 then .ok (.empty, self, infile1)
    else if lbuf.length < 4 then .error .UnexpectedEOF
    else
      match ordl lbuf with
      | .error e => .error e
      | .ok len0 =>
        match infile1.read 4 with
        | (idraw, infile2) =>
          match decode_ascii idraw with
          | .error e => .error e
          | .ok id =>
            if id.length < 4 then .error .UnexpectedEOF
            else JP2Box.parse_header_tail self infile2 len0 id

/-- JP2Box.parse_header (jp2box.py lines 82-120): in a bounded scope
(`self.end > 0`), position == end signals no more boxes, position past end is
InvalidBoxLength("unknown box"); otherwise decode a header. -/
def JP2Box.parse_header (self : JP2Box) (infile : Buffer) :
    Except PyError (HeaderResult × JP2Box × Buffer) :=
  if 0 < self.«end» ∧ infile.tell = self.«end» then .ok (.empty, self, infile)
  else if 0 < self.«end» ∧ self.«end» < infile.tell then
    .error (.InvalidBoxLength ("unknown box"))
  else JP2Box.parse_header_read self infile

/-- JP2Box.parse_string_header (jp2box.py lines 59-80).  Note the source
passes the entire buffer to ordl (struct.unpack('>L', buf)), which demands
exactly 4 bytes. -/
def JP2Box.parse_string_header (buf : List Nat) :
    Except PyError (List Nat × Nat × List Nat) :=
  match ordl buf with
  | .error e => .error e
  | .ok length0 =>
    let id := (buf.drop 4).take 4
    let buf1 := buf.drop 8
    if length0 = 1 then
      let xlength := buf1.take 8
      let buf2 := buf1.drop 8
      if xlength.length < 8 then .error .UnexpectedEOF
      else
        match ordq xlength with
        | .error e => .error e
        | .ok xl =>
          if xl < 16 then
            match boxname id with
            | .error e => .error e
            | .ok nm => .error (.InvalidBoxLength nm)
          else .ok (buf2, xl - 16, id)
    else if 0 < length0 ∧ length0 < 8 then
      match boxname id with
      | .error e => .error e
      | .ok nm => .error (.InvalidBoxLength nm)
    else if 0 < length0 then .ok (buf1, length0 - 8, id)
    else .ok (buf1, length0, id)

/-- JP2Box.readbody (jp2box.py lines 122-128): a fixed read of
`self.bodysize` bytes when positive, otherwise `read()` of everything
remaining.  Returns the bytes and the advanced source. -/
def JP2Box.readbody (self : JP2Box) (infile : Buffer) : List Nat × Buffer :=
  if 0 < self.bodysize then infile.read (self.bodysize : Int)
  else infile.read (-1)

/-- A box handler ("hook"): given the walker state, the shared source, the
type tag and the textual size description, it may read or seek the source
(returning its new state).  Per the walker's handler interface it does not
assign the walker's own fields. -/
def Hook : Type := JP2Box → Buffer → List Nat → String → Buffer

/-- Outcome of one iteration of the while-loop of JP2Box.parse: either the
loop returned, or it continues with updated state. -/
inductive StepResult where
  | finished (box : JP2Box) (infile : Buffer)
  | next (box : JP2Box) (infile : Buffer)
deriving Repr, DecidableEq

/-- One iteration of JP2Box.parse (jp2box.py lines 130-156): decode a
header; empty means return; the sentinel 1-tuple means new_box
(indent + 1), hook, end_box (indent - 1), then `continue` with the source
wherever the hook left it; a normal box sets bodysize and target, calls the
hook, then unconditionally seeks to target and advances offset. -/
def JP2Box.parse_step (hook : Hook) (self : JP2Box) (infile : Buffer) :
    Except PyError StepResult :=
  match JP2Box.parse_header self infile with
  | .error e => .error e
  | .ok (.empty, self1, infile1) => .ok (.finished self1 infile1)
  | .ok (.sentinel id, self1, infile1) =>
    let self2 := { self1 with indent := self1.indent + 1 }
    let infile2 := hook self2 infile1 id ("all up to EOF")
    .ok (.next { self2 with indent := self2.indent - 1 } infile2)
  | .ok (.box length id, self1, infile1) =>
    let self2 := { self1 with bodysize := length,
                              target := infile1.tell + length }
    let self3 := { self2 with indent := self2.indent + 1 }
    let infile2 := hook self3 infile1 id (toString length)
    let infile3 := infile2.seek self3.target
    .ok (.next { self3 with offset := self3.offset + length,
                            indent := self3.indent - 1 }
               infile3)

/-- The full while-loop of JP2Box.parse, driven by fuel (the Python loop
need not terminate for an arbitrary hook); `none` means the fuel ran out. -/
def JP2Box.parse_loop (hook : Hook) :
    Nat → JP2Box → Buffer → Option (Except PyError (JP2Box × Buffer))
  | 0, _, _ => none
  | fuel + 1, self, infile =>
    match JP2Box.parse_step hook self infile with
    | .error e => some (.error e)
    | .ok (.finished s i) => some (.ok (s, i))
    | .ok (.next s i) => JP2Box.parse_loop hook fuel s i



/-- A root walker as built by JP2Box(None, infile). -/
def box0 : JP2Box := ⟨0, 0, 0, 0, 0, 0, 0⟩

/-- A hook that ignores the box body. -/
def noopHook : Hook := fun _ b _ _ => b

/-- A hook that reads the box body through the walker's readbody
primitive. -/
def readHook : Hook := fun s b _ _ => (JP2Box.readbody s b).snd

/-- A hook that greedily reads far more than any declared body size. -/
def greedyHook : Hook := fun _ b _ _ => (b.read 1000).snd

/-- A hook that repositions the source to the walker's scope end. -/
def seekEndHook : Hook := fun s b _ _ => b.seek s.«end»

/-- A 13-byte source: one box of declared length 10 (body 2), then 3 spare
bytes. -/
def c1list : List Nat := [0, 0, 0, 10, 106, 112, 50, 104, 1, 2, 7, 7, 7]

/-- A walker bounded to a 100-byte scope. -/
def c2box : JP2Box := ⟨0, 0, 100, 0, 0, 0, 0⟩

/-- A 100-byte all-zero source: its first box is an L == 0 sentinel. -/
def c2list : List Nat := List.replicate 100 0

/-- A 36-byte source: a finite box "abcd" of declared length 16 (body 8),
then an L == 0 sentinel box "efgh" whose body is the last 12 bytes. -/
def c8list : List Nat :=
  [0, 0, 0, 16, 97, 98, 99, 100, 1, 2, 3, 4, 5, 6, 7, 8,
   0, 0, 0, 0, 101, 102, 103, 104, 9, 10, 11, 12, 13, 14, 15, 16, 17, 18,
   19, 20]

/-- An 11-byte source whose only box is an L == 0 sentinel with a 3-byte
body. -/
def c8wlist : List Nat := [0, 0, 0, 0, 106, 112, 50, 104, 1, 2, 3]

/-- A 16-byte extended-length header with XL = 15 (invalid). -/
def c4wa : List Nat := [0, 0, 0, 1, 106, 112, 50, 104, 0, 0, 0, 0, 0, 0, 0, 15]

/-- A 16-byte extended-length header with XL = 16 (valid, empty body). -/
def c4wb : List Nat := [0, 0, 0, 1, 106, 112, 50, 104, 0, 0, 0, 0, 0, 0, 0, 16]

/-- An extended-length header truncated inside the XL field. -/
def c4wc : List Nat := [0, 0, 0, 1, 106, 112, 50, 104, 0, 0]



/-- If a nonempty k-byte slice at `o` is fully present, the list extends
past it. -/
theorem slice_extent {l : List Nat} {o k : Nat} {bs : List Nat}
    (h : (l.drop o).take k = bs) (hb : bs.length = k) (hk : 0 < k) :
    o + k ≤ l.length := by
  have hh := congrArg List.length h
  rw [List.length_take, List.length_drop, hb] at hh
  have h2 : k ≤ l.length - o := min_eq_left_iff.mp hh
  omega

/-- Buffer.read of a positive byte count that is fully available. -/
theorem Buffer.read_natCast (b : Buffer) (k : Nat) (hk : 0 < k)
    (h : k ≤ b.buffer.length - b.offset) :
    b.read (k : Int) =
      ((b.buffer.drop b.offset).take k, ⟨b.buffer, b.offset + k⟩) := by
  have hoff : ¬ (b.eof_reached = true) := by
    simp only [Buffer.eof_reached, decide_eq_true_eq]
    omega
  have hamt : b.read_amount (k : Int) = k := by
    unfold Buffer.read_amount Buffer.rest_len
    rw [if_neg (by omega)]
    omega
  unfold Buffer.read
  rw [if_neg hoff, hamt]

/-- Buffer.read 4 with at least 4 bytes available. -/
theorem Buffer.read4_eq (b : Buffer) (h : 4 ≤ b.buffer.length - b.offset) :
    b.read 4 = ((b.buffer.drop b.offset).take 4, ⟨b.buffer, b.offset + 4⟩) := by
  have := Buffer.read_natCast b 4 (by norm_num) h
  simpa using this

/-- Buffer.read 8 with at least 8 bytes available. -/
theorem Buffer.read8_eq (b : Buffer) (h : 8 ≤ b.buffer.length - b.offset) :
    b.read 8 = ((b.buffer.drop b.offset).take 8, ⟨b.buffer, b.offset + 8⟩) := by
  have := Buffer.read_natCast b 8 (by norm_num) h
  simpa using this

/-- Buffer.read of more bytes than remain (but not at EOF): a short read of
everything left. -/
theorem Buffer.read_natCast_short (b : Buffer) (k : Nat)
    (h0 : b.offset < b.buffer.length) (h : b.buffer.length - b.offset < k) :
    b.read (k : Int) =
      ((b.buffer.drop b.offset).take (b.buffer.length - b.offset),
       ⟨b.buffer, b.offset + (b.buffer.length - b.offset)⟩) := by
  have hoff : ¬ (b.eof_reached = true) := by
    simp only [Buffer.eof_reached, decide_eq_true_eq]
    omega
  have hamt : b.read_amount (k : Int) = b.buffer.length - b.offset := by
    unfold Buffer.read_amount Buffer.rest_len
    rw [if_pos (by omega)]
  unfold Buffer.read
  rw [if_neg hoff, hamt]

/-- Buffer.read 4 with fewer than 4 bytes remaining (not at EOF). -/
theorem Buffer.read4_short (b : Buffer) (h0 : b.offset < b.buffer.length)
    (h : b.buffer.length - b.offset < 4) :
    b.read 4 = ((b.buffer.drop b.offset).take (b.buffer.length - b.offset),
                ⟨b.buffer, b.offset + (b.buffer.length - b.offset)⟩) := by
  have := Buffer.read_natCast_short b 4 h0 h
  simpa using this

/-- Buffer.read 8 with fewer than 8 bytes remaining (not at EOF). -/
theorem Buffer.read8_short (b : Buffer) (h0 : b.offset < b.buffer.length)
    (h : b.buffer.length - b.offset < 8) :
    b.read 8 = ((b.buffer.drop b.offset).take (b.buffer.length - b.offset),
                ⟨b.buffer, b.offset + (b.buffer.length - b.offset)⟩) := by
  have := Buffer.read_natCast_short b 8 h0 h
  simpa using this

/-- Buffer.read at EOF returns nothing and leaves the state unchanged. -/
theorem Buffer.read_at_eof (b : Buffer) (l : Int)
    (h : b.buffer.length ≤ b.offset) : b.read l = ([], b) := by
  unfold Buffer.read
  rw [if_pos]
  simp only [Buffer.eof_reached, decide_eq_true_eq]
  exact h

/-- boxname of a 4-byte tag always produces a name (never an exception). -/
theorem boxname_quad (a b c d : Nat) :
    ∃ nm, boxname [a, b, c, d] = Except.ok nm := by
  by_cases ha : isLetterDigit a <;> by_cases hb : isLetterDigit b <;>
    by_cases hc : isLetterDigit c <;> by_cases hd : isLetterDigit d <;>
    simp [boxname, boxname_scan, hexOfTag, ha, hb, hc, hd]

/-- In a bounded scope, a cursor exactly at the scope end yields the
"no more boxes" result without touching the source. -/
theorem JP2Box.parse_header_at_end (self : JP2Box) (infile : Buffer)
    (h : 0 < self.«end») (he : infile.offset = self.«end») :
    self.parse_header infile = .ok (.empty, self, infile) := by
  unfold JP2Box.parse_header
  rw [if_pos ⟨h, he⟩]

/-- In a bounded scope, a cursor past the scope end fails with
InvalidBoxLength for the unidentified box. -/
theorem JP2Box.parse_header_past_end (self : JP2Box) (infile : Buffer)
    (h : 0 < self.«end») (he : self.«end» < infile.offset) :
    self.parse_header infile = .error (.InvalidBoxLength ("unknown box")) := by
  unfold JP2Box.parse_header
  rw [if_neg (by rintro ⟨-, h2⟩; simp only [Buffer.tell] at h2; omega),
      if_pos ⟨h, he⟩]

/-- Below a bounded scope's end (or in an unbounded scope) the header is
actually read. -/
theorem JP2Box.parse_header_in_scope (self : JP2Box) (infile : Buffer)
    (h : self.«end» = 0 ∨ infile.offset < self.«end») :
    self.parse_header infile = JP2Box.parse_header_read self infile := by
  unfold JP2Box.parse_header
  rw [if_neg, if_neg]
  · rintro ⟨h1, h2⟩
    simp only [Buffer.tell] at h2
    omega
  · rintro ⟨h1, h2⟩
    simp only [Buffer.tell] at h2
    omega

/-- Reading a well-formed 8-byte header (4-byte length field, 4-byte ASCII
tag) reduces the header decoder to its length-field semantics, with the
source advanced past the header. -/
theorem JP2Box.parse_header_read_pipeline (self : JP2Box) (infile : Buffer)
    (l0 l1 l2 l3 t0 t1 t2 t3 : Nat)
    (h1 : (infile.buffer.drop infile.offset).take 4 = [l0, l1, l2, l3])
    (h2 : (infile.buffer.drop (infile.offset + 4)).take 4 = [t0, t1, t2, t3])
    (ht0 : t0 < 128) (ht1 : t1 < 128) (ht2 : t2 < 128) (ht3 : t3 < 128) :
    JP2Box.parse_header_read self infile =
      JP2Box.parse_header_tail self ⟨infile.buffer, infile.offset + 8⟩
        (ordl4 l0 l1 l2 l3) [t0, t1, t2, t3] := by
  have hl1 : 4 ≤ infile.buffer.length - infile.offset := by
    have := slice_extent h1 (by simp) (by norm_num)
    omega
  have hl2 : 4 ≤ infile.buffer.length - (infile.offset + 4) := by
    have := slice_extent h2 (by simp) (by norm_num)
    omega
  have hr1 : infile.read 4 = ([l0, l1, l2, l3], ⟨infile.buffer, infile.offset + 4⟩) := by
    rw [Buffer.read4_eq infile hl1, h1]
  have hr2 : (Buffer.mk infile.buffer (infile.offset + 4)).read 4 =
      ([t0, t1, t2, t3], ⟨infile.buffer, infile.offset + 4 + 4⟩) := by
    rw [Buffer.read4_eq ⟨infile.buffer, infile.offset + 4⟩ (by simpa using hl2)]
    simp only
    rw [h2]
  have hdec : decode_ascii [t0, t1, t2, t3] = .ok [t0, t1, t2, t3] := by
    unfold decode_ascii
    rw [if_pos]
    simp only [List.all_cons, List.all_nil, Bool.and_true, Bool.and_eq_true,
      decide_eq_true_eq]
    exact ⟨ht0, ht1, ht2, ht3⟩
  unfold JP2Box.parse_header_read
  rw [hr1]
  dsimp only
  rw [if_neg (by simp), if_neg (by simp)]
  rw [show ordl [l0, l1, l2, l3] = Except.ok (ordl4 l0 l1 l2 l3) from rfl]
  dsimp only
  rw [hr2]
  dsimp only
  rw [hdec]
  dsimp only
  rfl



/-- Buffer.read with the default -1 length: everything from the cursor to
the end of the source. -/
theorem Buffer.read_rest (b : Buffer) (h : b.offset ≤ b.buffer.length) :
    b.read (-1) = (b.buffer.drop b.offset, ⟨b.buffer, b.buffer.length⟩) := by
  by_cases heof : b.buffer.length ≤ b.offset
  · rw [Buffer.read_at_eof _ _ heof, List.drop_eq_nil_of_le heof]
    have h1 : b.offset = b.buffer.length := le_antisymm h heof
    cases b with
    | mk buf off =>
      simp only at h1
      rw [h1]
  · push_neg at heof
    unfold Buffer.read
    rw [if_neg (by simp only [Buffer.eof_reached, decide_eq_true_eq]; omega)]
    have hamt : b.read_amount (-1) = b.buffer.length - b.offset := by
      unfold Buffer.read_amount Buffer.rest_len
      rw [if_pos (Or.inl rfl)]
    rw [hamt]
    refine Prod.ext ?_ ?_
    · show (b.buffer.drop b.offset).take (b.buffer.length - b.offset) =
        b.buffer.drop b.offset
      rw [show b.buffer.length - b.offset = (b.buffer.drop b.offset).length
            from (List.length_drop _ _).symm]
      exact List.take_length _
    · show (⟨b.buffer, b.offset + (b.buffer.length - b.offset)⟩ : Buffer) =
        ⟨b.buffer, b.buffer.length⟩
      have h2 : b.offset + (b.buffer.length - b.offset) = b.buffer.length := by
        omega
      rw [h2]


/-- C5: for every header decode within a bounded scope (scope end > 0),
JP2Box.parse_header applies three-way boundary logic before reading any
bytes: position equal to the scope end signals "no more boxes" (the empty
result, source untouched, not an error); position strictly past the end
fails with InvalidBoxLength for the unidentified "unknown box"; only a
position strictly below the end proceeds to read a header. -/
theorem C5_boundary_three_way (self : JP2Box) (infile : Buffer)
    (h : 0 < self.«end») :
    (infile.offset = self.«end» →
      self.parse_header infile = .ok (.empty, self, infile)) ∧
    (self.«end» < infile.offset →
      self.parse_header infile = .error (.InvalidBoxLength ("unknown box"))) ∧
    (infile.offset < self.«end» →
      self.parse_header infile = JP2Box.parse_header_read self infile) :=
  ⟨fun he => JP2Box.parse_header_at_end self infile h he,
   fun he => JP2Box.parse_header_past_end self infile h he,
   fun he => JP2Box.parse_header_in_scope self infile (Or.inr he)⟩

/-- C5 witness: a scope ending at 100, probed at positions 100, 101 and 0. -/
theorem C5_boundary_three_way_witness :
    JP2Box.parse_header c2box ⟨c2list, 100⟩ =
      .ok (.empty, c2box, ⟨c2list, 100⟩) ∧
    JP2Box.parse_header c2box ⟨c2list, 101⟩ =
      .error (.InvalidBoxLength ("unknown box")) ∧
    JP2Box.parse_header c2box ⟨c2list, 0⟩ =
      JP2Box.parse_header_read c2box ⟨c2list, 0⟩ :=
  ⟨(C5_boundary_three_way c2box ⟨c2list, 100⟩ (by decide)).1 rfl,
   (C5_boundary_three_way c2box ⟨c2list, 101⟩ (by decide)).2.1 (by decide),
   (C5_boundary_three_way c2box ⟨c2list, 0⟩ (by decide)).2.2 (by decide)⟩

/-- C1: after any finite-length box's handler returns, the walk step seeks
the source to exactly the body end offset (position immediately after the
header plus the declared body size), no matter what the hook did to the
source, before the loop continues with the next sibling. -/
theorem C1_reposition_to_declared_end (hook : Hook) (self : JP2Box)
    (infile : Buffer) (length : Nat) (id : List Nat) (self1 : JP2Box)
    (infile1 : Buffer)
    (h : self.parse_header infile = .ok (.box length id, self1, infile1)) :
    JP2Box.parse_step hook self infile =
      .ok (.next
        { self1 with offset := self1.offset + length, bodysize := length,
                     target := infile1.offset + length }
        ⟨(hook { self1 with bodysize := length,
                            target := infile1.offset + length,
                            indent := self1.indent + 1 }
               infile1 id (toString length)).buffer,
         infile1.offset + length⟩) := by
  unfold JP2Box.parse_step
  rw [h]
  dsimp only [Buffer.tell, Buffer.seek]
  simp [add_sub_cancel_right]

/-- C1 witness: a box of declared length 10 (body 2) handled by a hook that
greedily reads to the end of the source; the step still leaves the cursor
at offset 10 = 8 + 2. -/
theorem C1_reposition_to_declared_end_witness :
    JP2Box.parse_step greedyHook box0 ⟨c1list, 0⟩ =
      .ok (.next ⟨0, 10, 0, 8, 2, 10, 2⟩ ⟨c1list, 10⟩) :=
  C1_reposition_to_declared_end greedyHook box0 ⟨c1list, 0⟩ 2
    [106, 112, 50, 104] ⟨0, 8, 0, 8, 2, 0, 0⟩ ⟨c1list, 8⟩ rfl

/-- C2 counterexample: in a 100-byte scope whose first box is the L == 0
sentinel, after the sentinel's handler (here one that reads nothing)
returns, the walk loop continues and decodes another header inside the
sentinel's own body, so a sibling header decode does occur after the
sentinel. -/
theorem C2_counterexample :
    JP2Box.parse_step noopHook c2box ⟨c2list, 0⟩ =
      .ok (.next ⟨0, 8, 100, 8, 0, 0, 0⟩ ⟨c2list, 8⟩) ∧
    JP2Box.parse_header ⟨0, 8, 100, 8, 0, 0, 0⟩ ⟨c2list, 8⟩ =
      .ok (.sentinel [0, 0, 0, 0], ⟨0, 16, 100, 8, 0, 0, 0⟩, ⟨c2list, 16⟩) :=
  ⟨rfl, rfl⟩

/-- C2 amended: after decoding an L == 0 sentinel box the walker invokes
the handler and then continues the loop (it does not return), leaving the
source wherever the handler left it; the walk of the scope ends only if
the handler parked the cursor exactly at the scope's end, in which case the
next iteration reports no-more-boxes. -/
theorem C2_sentinel_continues (hook : Hook) (self : JP2Box) (infile : Buffer)
    (id : List Nat) (self1 : JP2Box) (infile1 : Buffer)
    (h : self.parse_header infile = .ok (.sentinel id, self1, infile1)) :
    JP2Box.parse_step hook self infile =
      .ok (.next self1
        (hook { self1 with indent := self1.indent + 1 } infile1 id
          "all up to EOF")) ∧
    (0 < self1.«end» →
      (hook { self1 with indent := self1.indent + 1 } infile1 id
        "all up to EOF").offset = self1.«end» →
      JP2Box.parse_step hook self1
          (hook { self1 with indent := self1.indent + 1 } infile1 id
            "all up to EOF") =
        .ok (.finished self1
          (hook { self1 with indent := self1.indent + 1 } infile1 id
            "all up to EOF"))) := by
  constructor
  · unfold JP2Box.parse_step
    rw [h]
    dsimp only
    simp [add_sub_cancel_right]
  · intro hend hoff
    unfold JP2Box.parse_step
    rw [JP2Box.parse_header_at_end self1 _ hend hoff]

/-- C2 witness: the sentinel's handler seeks to the scope end; the step
continues, and the following iteration finishes the scope cleanly. -/
theorem C2_sentinel_continues_witness :
    JP2Box.parse_step seekEndHook c2box ⟨c2list, 0⟩ =
      .ok (.next ⟨0, 8, 100, 8, 0, 0, 0⟩ ⟨c2list, 100⟩) ∧
    JP2Box.parse_step seekEndHook ⟨0, 8, 100, 8, 0, 0, 0⟩ ⟨c2list, 100⟩ =
      .ok (.finished ⟨0, 8, 100, 8, 0, 0, 0⟩ ⟨c2list, 100⟩) := by
  have h := C2_sentinel_continues seekEndHook c2box ⟨c2list, 0⟩ [0, 0, 0, 0]
    ⟨0, 8, 100, 8, 0, 0, 0⟩ ⟨c2list, 8⟩ rfl
  exact ⟨h.1, h.2 (by decide) rfl⟩

/-- C7 counterexample: a fixed-size readbody of 10 bytes over a 3-byte
source silently returns the 3 available bytes; no UnexpectedEOF is raised
(readbody cannot fail at all). -/
theorem C7_counterexample :
    JP2Box.readbody ⟨0, 0, 0, 0, 0, 0, 10⟩ ⟨[1, 2, 3], 0⟩ =
      ([1, 2, 3], ⟨[1, 2, 3], 3⟩) := rfl

/-- C7 amended: the fixed-size readbody returns the first
min(bodysize, available) bytes, silently short when fewer than bodysize
remain (never zero-padded, never an error); the bodysize == 0 case returns
everything remaining, including an empty result at end of source. -/
theorem C7_readbody_reads (self : JP2Box) (infile : Buffer) :
    (0 < self.bodysize →
      (JP2Box.readbody self infile).fst =
        (infile.buffer.drop infile.offset).take
          (min self.bodysize (infile.buffer.length - infile.offset))) ∧
    (self.bodysize = 0 →
      (JP2Box.readbody self infile).fst =
        infile.buffer.drop infile.offset) := by
  constructor
  · intro hb
    unfold JP2Box.readbody
    rw [if_pos hb]
    by_cases heof : infile.buffer.length ≤ infile.offset
    · rw [Buffer.read_at_eof _ _ heof, List.drop_eq_nil_of_le heof]
      simp
    · push_neg at heof
      by_cases hlt : infile.buffer.length - infile.offset < self.bodysize
      · rw [Buffer.read_natCast_short infile self.bodysize heof hlt,
            min_eq_right (le_of_lt hlt)]
      · push_neg at hlt
        rw [Buffer.read_natCast infile self.bodysize hb hlt,
            min_eq_left hlt]
  · intro hb
    unfold JP2Box.readbody
    rw [if_neg (by omega)]
    by_cases heof : infile.buffer.length ≤ infile.offset
    · rw [Buffer.read_at_eof _ _ heof, List.drop_eq_nil_of_le heof]
    · push_neg at heof
      rw [Buffer.read_rest infile (le_of_lt heof)]

/-- C7 witness: the short fixed-size read of the counterexample, and an
unbounded read returning the remainder. -/
theorem C7_readbody_reads_witness :
    (JP2Box.readbody ⟨0, 0, 0, 0, 0, 0, 10⟩ ⟨[1, 2, 3], 0⟩).fst =
      [1, 2, 3] ∧
    (JP2Box.readbody ⟨0, 0, 0, 0, 0, 0, 0⟩ ⟨[1, 2, 3], 1⟩).fst = [2, 3] :=
  ⟨(C7_readbody_reads ⟨0, 0, 0, 0, 0, 0, 10⟩ ⟨[1, 2, 3], 0⟩).1 (by decide),
   (C7_readbody_reads ⟨0, 0, 0, 0, 0, 0, 0⟩ ⟨[1, 2, 3], 1⟩).2 rfl⟩

/-- C9: boxname of any 4-byte tag never raises: it returns the four
characters themselves when all four bytes are ASCII letters or digits, and
otherwise the 0x-prefixed 8-hex-digit big-endian rendering. -/
theorem C9_boxname_rendering (t0 t1 t2 t3 : Nat)
    (h0 : t0 < 256) (h1 : t1 < 256) (h2 : t2 < 256) (h3 : t3 < 256) :
    boxname [t0, t1, t2, t3] =
      .ok (if isLetterDigit t0 && isLetterDigit t1 && isLetterDigit t2 &&
              isLetterDigit t3
           then String.mk [Char.ofNat t0, Char.ofNat t1, Char.ofNat t2,
                           Char.ofNat t3]
           else "0x" ++ byteHex t0 ++ byteHex t1 ++ byteHex t2 ++
                byteHex t3) := by
  by_cases ha : isLetterDigit t0 <;> by_cases hb : isLetterDigit t1 <;>
    by_cases hc : isLetterDigit t2 <;> by_cases hd : isLetterDigit t3 <;>
    simp [boxname, boxname_scan, hexOfTag, strOfBytes, ha, hb, hc, hd]

/-- C9 witness: "jp2h" renders as itself, the tag 00 01 02 03 renders as
0x00010203. -/
theorem C9_boxname_rendering_witness :
    boxname [106, 112, 50, 104] = .ok ("jp2h") ∧
    boxname [0, 1, 2, 3] = .ok ("0x00010203") := by
  have hA := C9_boxname_rendering 106 112 50 104
    (by decide) (by decide) (by decide) (by decide)
  have hB := C9_boxname_rendering 0 1 2 3
    (by decide) (by decide) (by decide) (by decide)
  rw [hA, hB]
  exact ⟨rfl, rfl⟩

/-- C10: the buffer-based decoder cannot agree with the source-based
decoder: it hands the entire buffer to ordl (struct.unpack('>L', buf)),
which demands exactly 4 bytes, so on the 8-byte header 00 00 00 10 "jp2h"
it raises struct.error while parse_header succeeds with body length 8. -/
theorem C10_struct_error_eval :
    JP2Box.parse_string_header [0, 0, 0, 16, 106, 112, 50, 104] =
      .error .StructError ∧
    JP2Box.parse_header box0 ⟨[0, 0, 0, 16, 106, 112, 50, 104], 0⟩ =
      .ok (.box 8 [106, 112, 50, 104], ⟨0, 8, 0, 8, 8, 0, 0⟩,
           ⟨[0, 0, 0, 16, 106, 112, 50, 104], 8⟩) :=
  ⟨rfl, rfl⟩


/-- C3 counterexample: with L = 2 and the non-ASCII tag ff ff ff ff the
decoder fails with UnicodeDecodeError (raised by the tag's .decode("ascii")
before any length check), not with InvalidBoxLength naming the tag. -/
theorem C3_counterexample :
    JP2Box.parse_header box0 ⟨[0, 0, 0, 2, 255, 255, 255, 255], 0⟩ =
      .error .UnicodeDecodeError ∧
    JP2Box.parse_header box0 ⟨[0, 0, 0, 2, 255, 255, 255, 255], 0⟩ ≠
      .error (.InvalidBoxLength ("0xffffffff")) := by
  refine ⟨rfl, ?_⟩
  intro hcontra
  rw [show JP2Box.parse_header box0 ⟨[0, 0, 0, 2, 255, 255, 255, 255], 0⟩ =
        .error .UnicodeDecodeError from rfl] at hcontra
  exact PyError.noConfusion (Except.error.inj hcontra)

/-- C3 amended: for a header whose 8 bytes are available and whose tag
bytes are ASCII ( < 0x80, so the tag decode succeeds), a length field L
with 0 < L < 8 and L ≠ 1 fails with InvalidBoxLength naming the rendered
tag, and L ≥ 8 succeeds with body size L - 8 and header size 8. -/
theorem C3_length_classification (self : JP2Box) (infile : Buffer)
    (l0 l1 l2 l3 t0 t1 t2 t3 : Nat)
    (hbound : self.«end» = 0 ∨ infile.offset < self.«end»)
    (h1 : (infile.buffer.drop infile.offset).take 4 = [l0, l1, l2, l3])
    (h2 : (infile.buffer.drop (infile.offset + 4)).take 4 = [t0, t1, t2, t3])
    (ht0 : t0 < 128) (ht1 : t1 < 128) (ht2 : t2 < 128) (ht3 : t3 < 128) :
    (2 ≤ ordl4 l0 l1 l2 l3 ∧ ordl4 l0 l1 l2 l3 ≤ 7 →
      ∃ nm, boxname [t0, t1, t2, t3] = .ok nm ∧
        self.parse_header infile = .error (.InvalidBoxLength nm)) ∧
    (8 ≤ ordl4 l0 l1 l2 l3 →
      self.parse_header infile =
        .ok (.box (ordl4 l0 l1 l2 l3 - 8) [t0, t1, t2, t3],
             { self with offset := self.offset + 8, hdrsize := 8,
                         boxsize := ordl4 l0 l1 l2 l3 - 8 },
             ⟨infile.buffer, infile.offset + 8⟩)) := by
  rw [JP2Box.parse_header_in_scope self infile hbound,
      JP2Box.parse_header_read_pipeline self infile l0 l1 l2 l3 t0 t1 t2 t3
        h1 h2 ht0 ht1 ht2 ht3]
  constructor
  · rintro ⟨hge, hle⟩
    obtain ⟨nm, hnm⟩ := boxname_quad t0 t1 t2 t3
    refine ⟨nm, hnm, ?_⟩
    unfold JP2Box.parse_header_tail
    rw [if_neg (by omega), if_pos ⟨by omega, by omega⟩, hnm]
  · intro hge
    unfold JP2Box.parse_header_tail
    rw [if_neg (by omega), if_neg (by rintro ⟨hc1, hc2⟩; omega),
        if_pos (by omega)]

/-- C3 witness: L = 5 with tag "abcd" fails naming the tag; L = 9 with tag
"jp2h" succeeds with body size 1 and header size 8. -/
theorem C3_length_classification_witness :
    JP2Box.parse_header box0 ⟨[0, 0, 0, 5, 97, 98, 99, 100], 0⟩ =
      .error (.InvalidBoxLength ("abcd")) ∧
    JP2Box.parse_header box0 ⟨[0, 0, 0, 9, 106, 112, 50, 104, 42], 0⟩ =
      .ok (.box 1 [106, 112, 50, 104], ⟨0, 8, 0, 8, 1, 0, 0⟩,
           ⟨[0, 0, 0, 9, 106, 112, 50, 104, 42], 8⟩) := by
  constructor
  · have hA := C3_length_classification box0 ⟨[0, 0, 0, 5, 97, 98, 99, 100], 0⟩
      0 0 0 5 97 98 99 100 (Or.inl rfl) rfl rfl
      (by decide) (by decide) (by decide) (by decide)
    obtain ⟨nm, hnm, herr⟩ := hA.1 (by decide)
    rw [show boxname [97, 98, 99, 100] = Except.ok ("abcd") from rfl] at hnm
    injection hnm with hnm'
    rw [← hnm'] at herr
    exact herr
  · exact (C3_length_classification box0
      ⟨[0, 0, 0, 9, 106, 112, 50, 104, 42], 0⟩ 0 0 0 9 106 112 50 104
      (Or.inl rfl) rfl rfl (by decide) (by decide) (by decide) (by decide)).2
      (by decide)

/-- C4 counterexample: with L = 1 and the non-ASCII tag fe fe fe fe the
decoder fails with UnicodeDecodeError before the extended length XL = 15 is
even read, not with the InvalidBoxLength the claim requires for XL < 16. -/
theorem C4_counterexample :
    JP2Box.parse_header box0
        ⟨[0, 0, 0, 1, 254, 254, 254, 254, 0, 0, 0, 0, 0, 0, 0, 15], 0⟩ =
      .error .UnicodeDecodeError := rfl

/-- C4 amended: for L = 1 with an available ASCII tag, an 8-byte big-endian
XL is read immediately after the tag; fewer than 8 bytes available there is
UnexpectedEOF; XL < 16 is InvalidBoxLength naming the rendered tag; and
XL ≥ 16 succeeds with body size XL - 16 and header size 16. -/
theorem C4_extended_length (self : JP2Box) (infile : Buffer)
    (t0 t1 t2 t3 : Nat)
    (hbound : self.«end» = 0 ∨ infile.offset < self.«end»)
    (h1 : (infile.buffer.drop infile.offset).take 4 = [0, 0, 0, 1])
    (h2 : (infile.buffer.drop (infile.offset + 4)).take 4 = [t0, t1, t2, t3])
    (ht0 : t0 < 128) (ht1 : t1 < 128) (ht2 : t2 < 128) (ht3 : t3 < 128) :
    (infile.buffer.length - (infile.offset + 8) < 8 →
      self.parse_header infile = .error .UnexpectedEOF) ∧
    (∀ x0 x1 x2 x3 x4 x5 x6 x7 : Nat,
      (infile.buffer.drop (infile.offset + 8)).take 8 =
          [x0, x1, x2, x3, x4, x5, x6, x7] →
      (ordq8 x0 x1 x2 x3 x4 x5 x6 x7 < 16 →
        ∃ nm, boxname [t0, t1, t2, t3] = .ok nm ∧
          self.parse_header infile = .error (.InvalidBoxLength nm)) ∧
      (16 ≤ ordq8 x0 x1 x2 x3 x4 x5 x6 x7 →
        self.parse_header infile =
          .ok (.box (ordq8 x0 x1 x2 x3 x4 x5 x6 x7 - 16) [t0, t1, t2, t3],
               { self with offset := self.offset + 16, hdrsize := 16,
                           boxsize := ordq8 x0 x1 x2 x3 x4 x5 x6 x7 - 16 },
               ⟨infile.buffer, infile.offset + 16⟩))) := by
  rw [JP2Box.parse_header_in_scope self infile hbound,
      JP2Box.parse_header_read_pipeline self infile 0 0 0 1 t0 t1 t2 t3
        h1 h2 ht0 ht1 ht2 ht3]
  rw [show ordl4 0 0 0 1 = 1 from rfl]
  constructor
  · intro hshort
    unfold JP2Box.parse_header_tail
    rw [if_pos rfl]
    by_cases heof : infile.buffer.length ≤ infile.offset + 8
    · rw [Buffer.read_at_eof ⟨infile.buffer, infile.offset + 8⟩ 8 heof]
      dsimp only
      rw [if_pos (by simp)]
    · push_neg at heof
      rw [Buffer.read8_short ⟨infile.buffer, infile.offset + 8⟩ heof hshort]
      dsimp only
      have hlen : ((infile.buffer.drop (infile.offset + 8)).take
          (infile.buffer.length - (infile.offset + 8))).length < 8 := by
        rw [List.length_take_of_le (by rw [List.length_drop])]
        omega
      rw [if_pos hlen]
  · intro x0 x1 x2 x3 x4 x5 x6 x7 hx
    have hx8 : infile.offset + 8 + 8 ≤ infile.buffer.length := by
      have := slice_extent hx (by simp) (by norm_num)
      omega
    have hr3 : (Buffer.mk infile.buffer (infile.offset + 8)).read 8 =
        ([x0, x1, x2, x3, x4, x5, x6, x7],
         ⟨infile.buffer, infile.offset + 8 + 8⟩) := by
      rw [Buffer.read8_eq ⟨infile.buffer, infile.offset + 8⟩
        (by dsimp only; omega)]
      dsimp only
      rw [hx]
    constructor
    · intro hxl
      obtain ⟨nm, hnm⟩ := boxname_quad t0 t1 t2 t3
      refine ⟨nm, hnm, ?_⟩
      unfold JP2Box.parse_header_tail
      rw [if_pos rfl, hr3]
      dsimp only
      rw [if_neg (by simp)]
      rw [show ordq [x0, x1, x2, x3, x4, x5, x6, x7] =
            Except.ok (ordq8 x0 x1 x2 x3 x4 x5 x6 x7) from rfl]
      dsimp only
      rw [if_pos hxl, hnm]
    · intro hxl
      unfold JP2Box.parse_header_tail
      rw [if_pos rfl, hr3]
      dsimp only
      rw [if_neg (by simp)]
      rw [show ordq [x0, x1, x2, x3, x4, x5, x6, x7] =
            Except.ok (ordq8 x0 x1 x2 x3 x4 x5 x6 x7) from rfl]
      dsimp only
      rw [if_neg (by omega)]

/-- C4 witness: tag "jp2h" with XL = 15 fails naming the tag, XL = 16
succeeds with body size 0 and header size 16, and an XL field with only 2
bytes available is UnexpectedEOF. -/
theorem C4_extended_length_witness :
    JP2Box.parse_header box0 ⟨c4wa, 0⟩ = .error (.InvalidBoxLength ("jp2h")) ∧
    JP2Box.parse_header box0 ⟨c4wb, 0⟩ =
      .ok (.box 0 [106, 112, 50, 104], ⟨0, 16, 0, 16, 0, 0, 0⟩,
           ⟨c4wb, 16⟩) ∧
    JP2Box.parse_header box0 ⟨c4wc, 0⟩ = .error .UnexpectedEOF := by
  refine ⟨?_, ?_, ?_⟩
  · have hA := C4_extended_length box0 ⟨c4wa, 0⟩ 106 112 50 104 (Or.inl rfl)
      rfl rfl (by decide) (by decide) (by decide) (by decide)
    obtain ⟨nm, hnm, herr⟩ := (hA.2 0 0 0 0 0 0 0 15 rfl).1 (by decide)
    rw [show boxname [106, 112, 50, 104] = Except.ok ("jp2h") from rfl] at hnm
    injection hnm with hnm'
    rw [← hnm'] at herr
    exact herr
  · exact ((C4_extended_length box0 ⟨c4wb, 0⟩ 106 112 50 104 (Or.inl rfl)
      rfl rfl (by decide) (by decide) (by decide) (by decide)).2
      0 0 0 0 0 0 0 16 rfl).2 (by decide)
  · exact (C4_extended_length box0 ⟨c4wc, 0⟩ 106 112 50 104 (Or.inl rfl)
      rfl rfl (by decide) (by decide) (by decide) (by decide)).1 (by decide)

/-- C6 counterexample: a source with exactly 6 bytes remaining fails, but
with UnicodeDecodeError rather than UnexpectedEOF when the two available
tag bytes are not ASCII (the tag is ascii-decoded before its length is
checked). -/
theorem C6_counterexample :
    JP2Box.parse_header box0 ⟨[0, 0, 0, 16, 200, 200], 0⟩ =
      .error .UnicodeDecodeError := rfl

/-- C6 amended: a short length-field read (0 < available < 4) is
UnexpectedEOF; zero bytes available is the non-error no-more-boxes signal;
and a short type-tag read is UnexpectedEOF provided the available tag bytes
are ASCII (< 0x80) — otherwise the tag's ascii decode fails first.  A
partial header is never returned. -/
theorem C6_short_reads (self : JP2Box) (infile : Buffer)
    (hbound : self.«end» = 0 ∨ infile.offset < self.«end») :
    (infile.buffer.length ≤ infile.offset →
      self.parse_header infile = .ok (.empty, self, infile)) ∧
    (infile.offset < infile.buffer.length →
      infile.buffer.length - infile.offset < 4 →
      self.parse_header infile = .error .UnexpectedEOF) ∧
    (4 ≤ infile.buffer.length - infile.offset →
      infile.buffer.length - infile.offset < 8 →
      (∀ b ∈ infile.buffer.drop (infile.offset + 4), b < 128) →
      self.parse_header infile = .error .UnexpectedEOF) := by
  rw [JP2Box.parse_header_in_scope self infile hbound]
  refine ⟨?_, ?_, ?_⟩
  · intro heof
    unfold JP2Box.parse_header_read
    rw [Buffer.read_at_eof infile 4 heof]
    rfl
  · intro h0 h4
    unfold JP2Box.parse_header_read
    rw [Buffer.read4_short infile h0 h4]
    dsimp only
    have hlen : ((infile.buffer.drop infile.offset).take
        (infile.buffer.length - infile.offset)).length =
        infile.buffer.length - infile.offset :=
      List.length_take_of_le (by rw [List.length_drop])
    rw [if_neg (by rw [hlen]; omega), if_pos (by rw [hlen]; omega)]
  · intro h4 h8 hall
    have hlen4 : ((infile.buffer.drop infile.offset).take 4).length = 4 :=
      List.length_take_of_le (by rw [List.length_drop]; omega)
    rcases hl4 : (infile.buffer.drop infile.offset).take 4 with
      _ | ⟨a, _ | ⟨b, _ | ⟨c, _ | ⟨d, rest⟩⟩⟩⟩ <;> rw [hl4] at hlen4 <;>
      simp at hlen4
    subst hlen4
    unfold JP2Box.parse_header_read
    rw [Buffer.read4_eq infile h4, hl4]
    dsimp only
    rw [if_neg (by simp), if_neg (by simp)]
    rw [show ordl [a, b, c, d] = Except.ok (ordl4 a b c d) from rfl]
    dsimp only
    by_cases heof2 : infile.buffer.length ≤ infile.offset + 4
    · rw [Buffer.read_at_eof ⟨infile.buffer, infile.offset + 4⟩ 4 heof2]
      dsimp only
      rw [show decode_ascii [] = Except.ok [] from rfl]
      dsimp only
      rw [if_pos (by simp)]
    · push_neg at heof2
      rw [Buffer.read4_short ⟨infile.buffer, infile.offset + 4⟩ heof2
        (by dsimp only; omega)]
      dsimp only
      have hcond : ((infile.buffer.drop (infile.offset + 4)).take
          (infile.buffer.length - (infile.offset + 4))).all
            (fun b => decide (b < 128)) = true := by
        rw [List.all_eq_true]
        intro x hx
        exact decide_eq_true (hall x (List.take_subset _ _ hx))
      have hdec : decode_ascii ((infile.buffer.drop (infile.offset + 4)).take
          (infile.buffer.length - (infile.offset + 4))) =
          .ok ((infile.buffer.drop (infile.offset + 4)).take
            (infile.buffer.length - (infile.offset + 4))) := by
        unfold decode_ascii
        rw [if_pos hcond]
      rw [hdec]
      dsimp only
      have hlen2 : ((infile.buffer.drop (infile.offset + 4)).take
          (infile.buffer.length - (infile.offset + 4))).length =
          infile.buffer.length - (infile.offset + 4) :=
        List.length_take_of_le (by rw [List.length_drop])
      rw [if_pos (by rw [hlen2]; omega)]

/-- C6 witness: the empty source is the clean no-more-boxes signal; a
2-byte source fails the length-field read; a 6-byte source with ASCII tag
bytes fails the tag read — all with UnexpectedEOF, never a partial
header. -/
theorem C6_short_reads_witness :
    JP2Box.parse_header box0 ⟨[], 0⟩ = .ok (.empty, box0, ⟨[], 0⟩) ∧
    JP2Box.parse_header box0 ⟨[1, 2], 0⟩ = .error .UnexpectedEOF ∧
    JP2Box.parse_header box0 ⟨[0, 0, 0, 16, 65, 66], 0⟩ =
      .error .UnexpectedEOF :=
  ⟨(C6_short_reads box0 ⟨[], 0⟩ (Or.inl rfl)).1 (by decide),
   (C6_short_reads box0 ⟨[1, 2], 0⟩ (Or.inl rfl)).2.1 (by decide) (by decide),
   (C6_short_reads box0 ⟨[0, 0, 0, 16, 65, 66], 0⟩ (Or.inl rfl)).2.2
     (by decide) (by decide) (by decide)⟩

/-- C8 counterexample: after a finite box of body size 8 is walked, the
walker's bodysize is still 8 when the following L == 0 sentinel box is
dispatched, so the sentinel handler's readbody returns those stale 8 bytes
(values 9..16 here), not the 12 bytes that remain in the scope. -/
theorem C8_counterexample :
    JP2Box.parse_step readHook box0 ⟨c8list, 0⟩ =
      .ok (.next ⟨0, 16, 0, 8, 8, 16, 8⟩ ⟨c8list, 16⟩) ∧
    JP2Box.parse_header ⟨0, 16, 0, 8, 8, 16, 8⟩ ⟨c8list, 16⟩ =
      .ok (.sentinel [101, 102, 103, 104], ⟨0, 24, 0, 8, 8, 16, 8⟩,
           ⟨c8list, 24⟩) ∧
    (JP2Box.readbody ⟨1, 24, 0, 8, 8, 16, 8⟩ ⟨c8list, 24⟩).fst =
      [9, 10, 11, 12, 13, 14, 15, 16] ∧
    c8list.drop 24 = [9, 10, 11, 12, 13, 14, 15, 16, 17, 18, 19, 20] :=
  ⟨rfl, rfl, rfl, rfl⟩

/-- C8 amended: when a sentinel box is decoded with the walker's bodysize
still 0 (as when it is the first box of the walk), the handler state built
by the dispatch step (indent bumped) reads, via readbody, exactly all bytes
from the position immediately after the 8-byte header to the end of the
underlying source — the end of the source, not of the scope. -/
theorem C8_sentinel_readbody (self : JP2Box) (infile : Buffer)
    (id : List Nat) (self1 : JP2Box) (infile1 : Buffer)
    (h : self.parse_header infile = .ok (.sentinel id, self1, infile1))
    (hbody : self1.bodysize = 0)
    (hoff : infile1.offset ≤ infile1.buffer.length) :
    (JP2Box.readbody { self1 with indent := self1.indent + 1 } infile1).fst =
      infile1.buffer.drop infile1.offset ∧
    (JP2Box.readbody { self1 with indent := self1.indent + 1 }
        infile1).snd.offset = infile1.buffer.length := by
  unfold JP2Box.readbody
  rw [if_neg (by dsimp only; omega), Buffer.read_rest infile1 hoff]
  exact ⟨rfl, rfl⟩

/-- C8 witness: an 11-byte source whose only box is the sentinel; the
handler state reads the whole 3-byte remainder, cursor ending at 11. -/
theorem C8_sentinel_readbody_witness :
    (JP2Box.readbody ⟨1, 8, 0, 8, 0, 0, 0⟩ ⟨c8wlist, 8⟩).fst = [1, 2, 3] ∧
    (JP2Box.readbody ⟨1, 8, 0, 8, 0, 0, 0⟩ ⟨c8wlist, 8⟩).snd.offset = 11 := by
  have h := C8_sentinel_readbody box0 ⟨c8wlist, 0⟩ [106, 112, 50, 104]
    ⟨0, 8, 0, 8, 0, 0, 0⟩ ⟨c8wlist, 8⟩ rfl rfl (by decide)
  exact ⟨h.1, h.2⟩

end JP2
